import Mathlib

/-!
# Verification of the SPDX identifier decomposition and classification engine

Shallow embedding of the pure core of the `licences-db` repository:

* `src/build_license_dataset.py` — `LICENSE_USAGE_MAP`,
  `get_license_usage_category` (lines 35–114) and `parse_license_version`
  (lines 117–166);
* `src/add_version_fields.py` — its own copy of `parse_license_version`
  (lines 8–35), identical except that it takes no `license_name` argument
  and omits the family-normalization step.

Python strings are modelled as `List Char`; `None` as `Option.none`.

The Python version-extraction regex is
`-(\d+(?:\.\d+)*(?:\.\d+)?)(?:-|$)` used with `re.search`.  Its captured
group ranges over the language `d+(.d+)*` (the trailing optional group is
absorbed by the star), so a match starting at position `i` of the string
`s` exists exactly when `s[i] = '-'` and some `j` exists with
`s[i+1..j)` a nonempty dot-separated sequence of digit groups and the
match boundary at `j` accepted by `(?:-|$)` (a hyphen at `j`, the end of
the string, or — Python `$` semantics — a single trailing newline after
`j`).  Such a `j` is unique for a given `i`, because a longer candidate
run would have to contain the hyphen or newline that terminated the
shorter one, and runs contain only digits and dots; hence searching `j`
upward from `0` returns exactly the regex engine's captured group.
`re.search` itself returns the match at the leftmost feasible start
position, which the character-by-character scan below reproduces.
-/

/-- `strStartsWith s p`: the list `s` starts with the list `p`
(Python `str.startswith`). -/
def strStartsWith : List Char → List Char → Bool
  | _, [] => true
  | [], _ :: _ => false
  | c :: cs, p :: ps => c == p && strStartsWith cs ps

/-- `strContains s p`: `p` occurs as a contiguous substring of `s`
(Python `p in s`). -/
def strContains : List Char → List Char → Bool
  | [], pat => strStartsWith [] pat
  | c :: rest, pat => strStartsWith (c :: rest) pat || strContains rest pat

/-- Worker for `replaceAll`, structurally recursive on a fuel argument
so that it reduces inside the kernel.  Every step consumes at least one
character of the remaining text while spending one unit of fuel, so with
`fuel = s.length` the `fuel = 0` branch is reached only on `[]` and the
nonempty-text fallback there is dead code. -/
def replaceAllGo (pat : List Char) : Nat → List Char → List Char
  | _, [] => []
  | 0, c :: rest => c :: rest
  | fuel + 1, c :: rest =>
    if strStartsWith (c :: rest) pat && !pat.isEmpty then
      replaceAllGo pat fuel (List.drop (pat.length - 1) rest)
    else
      c :: replaceAllGo pat fuel rest

/-- Python `s.replace(pat, "")` for a nonempty pattern: delete every
non-overlapping occurrence of `pat`, scanning left to right.  (The
`pat = []` case is degenerate and never used; both call sites pass a
fixed nonempty literal.) -/
def replaceAll (pat : List Char) (s : List Char) : List Char :=
  replaceAllGo pat s.length s

/-- Python `s.endswith("+")`. -/
def endsWithPlus (s : List Char) : Bool :=
  match s.getLast? with
  | some c => c == '+'
  | none => false

/-- Python `s.rstrip("+")`: remove every trailing `'+'`. -/
def rstripPlus (s : List Char) : List Char :=
  List.reverse (List.dropWhile (fun c => c == '+') s.reverse)

/-- A nonempty group of digits (one `\d+` block of the version regex). -/
def isDigitGroup (p : List Char) : Bool :=
  !p.isEmpty && p.all Char.isDigit

/-- The language of the regex capture group `\d+(?:\.\d+)*(?:\.\d+)?`:
one or more nonempty digit groups joined by single dots. -/
def isNumRun (v : List Char) : Bool :=
  !v.isEmpty && (v.splitOn '.').all isDigitGroup

/-- The `(?:-|$)` boundary after the captured run: a hyphen, the end of
the string, or (Python `$`) a lone trailing newline. -/
def versionBoundaryOk : List Char → Bool
  | [] => true
  | ['\n'] => true
  | c :: _ => c == '-'

/-- Search upward from `j` (with `fuel` positions left to try) for the
end index of the captured run inside `t`, the text following a
hyphen.  At most one `j` can succeed (see the header comment), so
returning the first hit reproduces the regex engine's group. -/
def searchJ (t : List Char) (j : Nat) : Nat → Option (List Char)
  | 0 => none
  | fuel + 1 =>
    if isNumRun (t.take j) && versionBoundaryOk (t.drop j) then
      some (t.take j)
    else
      searchJ t (j + 1) fuel

/-- The version run captured by the regex when its match starts at a
hyphen whose following text is `t`, or `none` when no match starts
there. -/
def matchVersionFrom (t : List Char) : Option (List Char) :=
  searchJ t 0 (t.length + 1)

/-- `re.search` of the version pattern over the working string:
scan start positions left to right; at each hyphen try to complete a
match; on success return `(text before the hyphen, captured run)`,
i.e. `(s[:m.start()], m.group(1))`. -/
def searchVersion (pre : List Char) : List Char → Option (List Char × List Char)
  | [] => none
  | c :: rest =>
    if c == '-' then
      match matchVersionFrom rest with
      | some v => some (pre.reverse, v)
      | none => searchVersion (c :: pre) rest
    else
      searchVersion (c :: pre) rest

/-- The regex match attempt at a single start position `i`: it succeeds
exactly when `s[i] = '-'` and a captured run follows, mirroring one step
of the engine's left-to-right scan. -/
def matchAt (s : List Char) (i : Nat) : Option (List Char) :=
  match s.drop i with
  | [] => none
  | c :: t => if c == '-' then matchVersionFrom t else none

/-- The result dictionary of `parse_license_version`: three fields, each
initialized to `None` in the source and hence optional in the type. -/
structure ParsedLicense where
  license_family : Option (List Char)
  version : Option (List Char)
  version_modifier : Option (List Char)
deriving Repr, DecidableEq

/-- Lines 133–142 of `build_license_dataset.py` (identically lines 16–25
of `add_version_fields.py`): modifier detection in priority order, the
matched marker removed from the working string.  Returns
`(version_modifier, working string)`. -/
def stripModifier (spdx_id : List Char) : Option (List Char) × List Char :=
  if strContains spdx_id "-only".data then
    (some "only".data, replaceAll "-only".data spdx_id)
  else if strContains spdx_id "-or-later".data then
    (some "or-later".data, replaceAll "-or-later".data spdx_id)
  else if endsWithPlus spdx_id then
    (some "or-later".data, rstripPlus spdx_id)
  else
    (none, spdx_id)

namespace AVF

/-- `parse_license_version` of `src/add_version_fields.py` (lines 8–35):
modifier extraction, then version extraction; the family is the text
before the match, or the whole working string when no match is found. -/
def parse_license_version (spdx_id : List Char) : ParsedLicense :=
  match searchVersion [] (stripModifier spdx_id).2 with
  | some (fam, ver) =>
    { license_family := some fam, version := some ver,
      version_modifier := (stripModifier spdx_id).1 }
  | none =>
    { license_family := some (stripModifier spdx_id).2, version := none,
      version_modifier := (stripModifier spdx_id).1 }

end AVF

/-- Lines 156–164 of `build_license_dataset.py`: the special handling of
common families applied to the already-set `license_family`. -/
def normalizeFamily (fam : List Char) : List Char :=
  if fam = "GPL".data ∨ fam = "LGPL".data ∨ fam = "AGPL".data ∨ fam = "GFDL".data then
    fam
  else if fam = "CC0".data then
    "CC0".data
  else if strStartsWith fam "CC-".data then
    "Creative Commons".data
  else
    fam

namespace BLD

/-- `parse_license_version` of `src/build_license_dataset.py`
(lines 117–166): as in `add_version_fields.py`, plus the
family-normalization step applied to whichever branch set the family;
the `license_name` argument is accepted but never read. -/
def parse_license_version (spdx_id license_name : List Char) : ParsedLicense :=
  match searchVersion [] (stripModifier spdx_id).2 with
  | some (fam, ver) =>
    { license_family := some (normalizeFamily fam), version := some ver,
      version_modifier := (stripModifier spdx_id).1 }
  | none =>
    { license_family := some (normalizeFamily (stripModifier spdx_id).2), version := none,
      version_modifier := (stripModifier spdx_id).1 }

/-- `LICENSE_USAGE_MAP` of `build_license_dataset.py` (lines 35–81), in
source order; the Python dict has pairwise-distinct keys, so first-hit
lookup agrees with dict lookup. -/
def LICENSE_USAGE_MAP : List (List Char × List Char) :=
  [("MIT".data, "both".data),
   ("Apache-2.0".data, "both".data),
   ("BSD-2-Clause".data, "both".data),
   ("BSD-3-Clause".data, "both".data),
   ("GPL-3.0".data, "both".data),
   ("GPL-2.0".data, "both".data),
   ("LGPL-3.0".data, "both".data),
   ("LGPL-2.1".data, "both".data),
   ("ISC".data, "both".data),
   ("MPL-2.0".data, "both".data),
   ("CC0-1.0".data, "both".data),
   ("CC-BY-4.0".data, "dataset".data),
   ("CC-BY-SA-4.0".data, "dataset".data),
   ("CC-BY-NC-4.0".data, "dataset".data),
   ("CC-BY-NC-SA-4.0".data, "dataset".data),
   ("CC-BY-ND-4.0".data, "dataset".data),
   ("CC-BY-NC-ND-4.0".data, "dataset".data),
   ("CDLA-Permissive-1.0".data, "dataset".data),
   ("CDLA-Permissive-2.0".data, "dataset".data),
   ("CDLA-Sharing-1.0".data, "dataset".data),
   ("C-UDA-1.0".data, "dataset".data),
   ("ODbL-1.0".data, "dataset".data),
   ("PDDL-1.0".data, "dataset".data),
   ("OpenRAIL-M".data, "model".data),
   ("OpenRAIL++".data, "model".data),
   ("BigScience-OpenRAIL-M".data, "model".data),
   ("CreativeML-OpenRAIL-M".data, "model".data),
   ("BigScience-BLOOM-RAIL-1.0".data, "model".data),
   ("AGPL-3.0".data, "code".data),
   ("Unlicense".data, "both".data),
   ("WTFPL".data, "code".data),
   ("Zlib".data, "code".data),
   ("BSL-1.0".data, "code".data),
   ("SSPL-1.0".data, "code".data)]

/-- `get_license_usage_category` of `build_license_dataset.py`
(lines 84–114): exact table lookup, then substring fallback rules in
source order, default `"other"`. -/
def get_license_usage_category (spdx_id : List Char) : List Char :=
  match List.lookup spdx_id LICENSE_USAGE_MAP with
  | some v => v
  | none =>
    if strContains spdx_id "CC-BY".data || strContains spdx_id "CC-".data then
      "dataset".data
    else if strContains spdx_id "GPL".data || strContains spdx_id "LGPL".data then
      "both".data
    else if strContains spdx_id "BSD".data then
      "both".data
    else if strContains spdx_id "Apache".data then
      "both".data
    else if strContains spdx_id "RAIL".data || strContains spdx_id "OpenRAIL".data then
      "model".data
    else if strContains spdx_id "CDLA".data || strContains spdx_id "ODbL".data then
      "dataset".data
    else
      "other".data

end BLD

example : BLD.parse_license_version "GPL-2.0-only".data [] =
    ⟨some "GPL".data, some "2.0".data, some "only".data⟩ := by decide

example : BLD.parse_license_version "MIT".data [] =
    ⟨some "MIT".data, none, none⟩ := by decide

example : BLD.parse_license_version "CC-BY-SA-4.0".data [] =
    ⟨some "Creative Commons".data, some "4.0".data, none⟩ := by decide

example : BLD.parse_license_version "OpenRAIL++".data [] =
    ⟨some "OpenRAIL".data, none, some "or-later".data⟩ := by decide

example : BLD.parse_license_version "Foo-1.2.3.4".data [] =
    ⟨some "Foo".data, some "1.2.3.4".data, none⟩ := by decide

example : BLD.parse_license_version "Foo-1.0-Bar-2.0".data [] =
    ⟨some "Foo".data, some "1.0".data, none⟩ := by decide

example : BLD.get_license_usage_category "AGPL-3.0".data = "code".data := by decide

example : BLD.get_license_usage_category "Unlicense".data = "both".data := by decide

example : BLD.get_license_usage_category "SomeUnknownLicense-9.9".data = "other".data := by
  decide

/-! ## Structural lemmas about the embedded functions -/

theorem searchJ_isNumRun (t : List Char) (fuel : Nat) : ∀ (j : Nat) (v : List Char),
    searchJ t j fuel = some v → isNumRun v = true := by
  induction fuel with
  | zero => intro j v h; simp [searchJ] at h
  | succ n ih =>
    intro j v h
    unfold searchJ at h
    split at h
    · next hc =>
      cases h
      rw [Bool.and_eq_true] at hc
      exact hc.1
    · exact ih (j + 1) v h

theorem matchVersionFrom_isNumRun (t v : List Char)
    (h : matchVersionFrom t = some v) : isNumRun v = true :=
  searchJ_isNumRun t (t.length + 1) 0 v h

theorem searchVersion_isNumRun (s : List Char) : ∀ (pre fam ver : List Char),
    searchVersion pre s = some (fam, ver) → isNumRun ver = true := by
  induction s with
  | nil => intro pre fam ver h; simp [searchVersion] at h
  | cons c rest ih =>
    intro pre fam ver h
    unfold searchVersion at h
    split at h
    · cases hm : matchVersionFrom rest with
      | some v =>
        rw [hm] at h
        cases h
        exact matchVersionFrom_isNumRun rest ver hm
      | none =>
        rw [hm] at h
        exact ih (c :: pre) fam ver h
    · exact ih (c :: pre) fam ver h

/-- The two parser copies share everything except the family
normalization: the build-script result is the add-script result with
`normalizeFamily` mapped over the family field. -/
theorem bld_parse_eq_avf (s n : List Char) :
    BLD.parse_license_version s n =
      { license_family :=
          (AVF.parse_license_version s).license_family.map normalizeFamily,
        version := (AVF.parse_license_version s).version,
        version_modifier := (AVF.parse_license_version s).version_modifier } := by
  unfold BLD.parse_license_version AVF.parse_license_version
  cases h : searchVersion [] (stripModifier s).2 with
  | none => simp
  | some p => cases p with | mk fam ver => simp

theorem avf_version_modifier_eq (s : List Char) :
    (AVF.parse_license_version s).version_modifier = (stripModifier s).1 := by
  unfold AVF.parse_license_version
  cases h : searchVersion [] (stripModifier s).2 with
  | none => rfl
  | some p => cases p; rfl

theorem avf_family_isSome (s : List Char) :
    (AVF.parse_license_version s).license_family.isSome = true := by
  unfold AVF.parse_license_version
  cases h : searchVersion [] (stripModifier s).2 with
  | none => rfl
  | some p => cases p; rfl

/-- When the family does not start with `"CC-"`, the normalization step
of `build_license_dataset.py` leaves it unchanged. -/
theorem normalizeFamily_eq_self (fam : List Char)
    (h : strStartsWith fam "CC-".data = false) : normalizeFamily fam = fam := by
  unfold normalizeFamily
  split
  · rfl
  · split
    · next h2 => exact h2.symm
    · split
      · next h3 => rw [h3] at h; cases h
      · rfl

/-- When the family does start with `"CC-"`, the normalization step
replaces it by the literal `"Creative Commons"`. -/
theorem normalizeFamily_CC (fam : List Char)
    (h : strStartsWith fam "CC-".data = true) :
    normalizeFamily fam = "Creative Commons".data := by
  have h1 : ¬(fam = "GPL".data ∨ fam = "LGPL".data ∨ fam = "AGPL".data ∨
      fam = "GFDL".data) := by
    rintro (h1 | h1 | h1 | h1) <;> rw [h1] at h <;> exact absurd h (by decide)
  have h2 : fam ≠ "CC0".data := by
    intro h2
    rw [h2] at h
    exact absurd h (by decide)
  simp [normalizeFamily, h1, h2, h]

/-! ## Claims -/

/-- C1, counterexample: the claim says the extracted version never has
more than three dot-separated components, but on `"Foo-1.2.3.4"` the
parser extracts the four-component version `"1.2.3.4"`. -/
theorem spec_C1_counterexample :
    (BLD.parse_license_version "Foo-1.2.3.4".data []).version =
        some "1.2.3.4".data ∧
      (("1.2.3.4".data).splitOn '.').length = 4 := by
  decide

/-- C1, amended: whenever either `parse_license_version` copy extracts a
version, the version is one or more dot-separated nonempty groups of
digits; the number of groups is unbounded (no three-component cap). -/
theorem spec_C1_amended (spdx name v : List Char)
    (h : (BLD.parse_license_version spdx name).version = some v ∨
      (AVF.parse_license_version spdx).version = some v) :
    isNumRun v = true := by
  have havf : (AVF.parse_license_version spdx).version = some v := by
    rcases h with h | h
    · rw [bld_parse_eq_avf] at h
      exact h
    · exact h
  unfold AVF.parse_license_version at havf
  rcases hs : searchVersion [] (stripModifier spdx).2 with _ | ⟨fam, ver⟩
  · rw [hs] at havf
    cases havf
  · rw [hs] at havf
    cases havf
    exact searchVersion_isNumRun _ _ _ _ hs

/-- C1 witness: at `"GPL-2.0"` the build-script parser extracts `"2.0"`,
which the amended claim certifies to be a dot-separated digit run. -/
theorem spec_C1_amended_witness :
    (BLD.parse_license_version "GPL-2.0".data []).version = some "2.0".data ∧
      isNumRun "2.0".data = true :=
  ⟨by decide, spec_C1_amended "GPL-2.0".data [] "2.0".data (Or.inl (by decide))⟩

/-- C7: the literal parse test cases of the spec: `"GPL-2.0-only"` gives
family `"GPL"`, version `"2.0"`, modifier `"only"`; `"MIT"` gives family
`"MIT"` with version and modifier absent; `"OpenRAIL++"` strips both
trailing pluses, giving modifier `"or-later"`, family `"OpenRAIL"`, no
version. -/
theorem spec_C7 :
    BLD.parse_license_version "GPL-2.0-only".data [] =
        ⟨some "GPL".data, some "2.0".data, some "only".data⟩ ∧
      BLD.parse_license_version "MIT".data [] = ⟨some "MIT".data, none, none⟩ ∧
      BLD.parse_license_version "OpenRAIL++".data [] =
        ⟨some "OpenRAIL".data, none, some "or-later".data⟩ := by
  decide

/-- C9: `parse_license_version` of `build_license_dataset.py` never
reads its `license_name` argument: the result is the same for any two
name strings. -/
theorem spec_C9 (spdx n1 n2 : List Char) :
    BLD.parse_license_version spdx n1 = BLD.parse_license_version spdx n2 := rfl

/-- C10: both parser copies always produce a present `license_family`
(both branches of the version match set it), even though the record type
declares the field optional. -/
theorem spec_C10 (spdx name : List Char) :
    (BLD.parse_license_version spdx name).license_family.isSome = true ∧
      (AVF.parse_license_version spdx).license_family.isSome = true := by
  constructor
  · unfold BLD.parse_license_version
    cases h : searchVersion [] (stripModifier spdx).2 with
    | none => rfl
    | some p => cases p; rfl
  · exact avf_family_isSome spdx

/-! ## Modifier-extraction lemmas -/

theorem stripModifier_only (s : List Char)
    (h : strContains s "-only".data = true) :
    stripModifier s = (some "only".data, replaceAll "-only".data s) := by
  simp [stripModifier, h]

theorem stripModifier_orlater (s : List Char)
    (h1 : strContains s "-only".data = false)
    (h2 : strContains s "-or-later".data = true) :
    stripModifier s = (some "or-later".data, replaceAll "-or-later".data s) := by
  simp [stripModifier, h1, h2]

theorem stripModifier_plus (s : List Char)
    (h1 : strContains s "-only".data = false)
    (h2 : strContains s "-or-later".data = false)
    (h3 : endsWithPlus s = true) :
    stripModifier s = (some "or-later".data, rstripPlus s) := by
  simp [stripModifier, h1, h2, h3]

theorem stripModifier_id (s : List Char)
    (h1 : strContains s "-only".data = false)
    (h2 : strContains s "-or-later".data = false)
    (h3 : endsWithPlus s = false) :
    stripModifier s = (none, s) := by
  simp [stripModifier, h1, h2, h3]

theorem bld_version_modifier_eq (s n : List Char) :
    (BLD.parse_license_version s n).version_modifier = (stripModifier s).1 := by
  rw [bld_parse_eq_avf]
  exact avf_version_modifier_eq s

theorem bld_family_map (s n : List Char) :
    (BLD.parse_license_version s n).license_family =
      Option.map normalizeFamily (AVF.parse_license_version s).license_family := by
  rw [bld_parse_eq_avf]

/-! ## Leftmost-match lemma for the version search -/

theorem searchVersion_leftmost (s : List Char) : ∀ (pre fam ver : List Char),
    searchVersion pre s = some (fam, ver) →
    ∃ i, fam = pre.reverse ++ s.take i ∧ matchAt s i = some ver ∧
      ∀ j < i, matchAt s j = none := by
  induction s with
  | nil => intro pre fam ver h; simp [searchVersion] at h
  | cons c rest ih =>
    intro pre fam ver h
    unfold searchVersion at h
    split at h
    · next hc =>
      cases hm : matchVersionFrom rest with
      | some v =>
        rw [hm] at h
        cases h
        have hc' : c = '-' := by simpa using hc
        refine ⟨0, by simp, ?_, ?_⟩
        · simp [matchAt, hc', hm]
        · intro j hj
          omega
      | none =>
        rw [hm] at h
        obtain ⟨i, hfam, hmat, hnone⟩ := ih (c :: pre) fam ver h
        have hc' : c = '-' := by simpa using hc
        refine ⟨i + 1, ?_, ?_, ?_⟩
        · rw [hfam]
          simp [List.take_succ_cons]
        · simpa [matchAt, List.drop_succ_cons] using hmat
        · intro j hj
          cases j with
          | zero => simp [matchAt, hc', hm]
          | succ j' =>
            have := hnone j' (by omega)
            simpa [matchAt, List.drop_succ_cons] using this
    · next hc =>
      obtain ⟨i, hfam, hmat, hnone⟩ := ih (c :: pre) fam ver h
      have hc' : (c == '-') = false := by simpa using hc
      refine ⟨i + 1, ?_, ?_, ?_⟩
      · rw [hfam]
        simp [List.take_succ_cons]
      · simpa [matchAt, List.drop_succ_cons] using hmat
      · intro j hj
        cases j with
        | zero => simp [matchAt, hc']
        | succ j' =>
          have := hnone j' (by omega)
          simpa [matchAt, List.drop_succ_cons] using this

/-! ## Classifier lemmas -/

theorem lookup_mem_values : ∀ (l : List (List Char × List Char)) (k v : List Char),
    List.lookup k l = some v → v ∈ l.map Prod.snd := by
  intro l
  induction l with
  | nil => intro k v h; simp [List.lookup] at h
  | cons p rest ih =>
    intro k v h
    cases p with
    | mk a b =>
      unfold List.lookup at h
      split at h
      · cases h
        simp
      · have := ih k v h
        simp [this]

theorem map_values_closed :
    ∀ v ∈ BLD.LICENSE_USAGE_MAP.map Prod.snd,
      v ∈ ["dataset".data, "model".data, "both".data, "code".data, "other".data] := by
  decide

/-- C2: the version modifier is set by three mutually exclusive rules in
priority order — substring `"-only"` gives `"only"` (with every
occurrence of `"-only"` removed from the working string that version
extraction then runs on), else substring `"-or-later"` gives
`"or-later"`, else a trailing `"+"` gives `"or-later"` (trailing pluses
stripped), else the modifier is absent — so the modifier is always
exactly one of `"only"`, `"or-later"`, or absent, identically in both
parser copies. -/
theorem spec_C2 (spdx name : List Char) :
    (strContains spdx "-only".data = true →
      (BLD.parse_license_version spdx name).version_modifier = some "only".data ∧
      (stripModifier spdx).2 = replaceAll "-only".data spdx) ∧
    (strContains spdx "-only".data = false →
      strContains spdx "-or-later".data = true →
      (BLD.parse_license_version spdx name).version_modifier = some "or-later".data ∧
      (stripModifier spdx).2 = replaceAll "-or-later".data spdx) ∧
    (strContains spdx "-only".data = false →
      strContains spdx "-or-later".data = false →
      endsWithPlus spdx = true →
      (BLD.parse_license_version spdx name).version_modifier = some "or-later".data ∧
      (stripModifier spdx).2 = rstripPlus spdx) ∧
    (strContains spdx "-only".data = false →
      strContains spdx "-or-later".data = false →
      endsWithPlus spdx = false →
      (BLD.parse_license_version spdx name).version_modifier = none) ∧
    ((BLD.parse_license_version spdx name).version_modifier = none ∨
      (BLD.parse_license_version spdx name).version_modifier = some "only".data ∨
      (BLD.parse_license_version spdx name).version_modifier = some "or-later".data) ∧
    (AVF.parse_license_version spdx).version_modifier =
      (BLD.parse_license_version spdx name).version_modifier := by
  refine ⟨?_, ?_, ?_, ?_, ?_, ?_⟩
  · intro h1
    rw [bld_version_modifier_eq, stripModifier_only spdx h1]
    exact ⟨rfl, rfl⟩
  · intro h1 h2
    rw [bld_version_modifier_eq, stripModifier_orlater spdx h1 h2]
    exact ⟨rfl, rfl⟩
  · intro h1 h2 h3
    rw [bld_version_modifier_eq, stripModifier_plus spdx h1 h2 h3]
    exact ⟨rfl, rfl⟩
  · intro h1 h2 h3
    rw [bld_version_modifier_eq, stripModifier_id spdx h1 h2 h3]
  · rw [bld_version_modifier_eq]
    cases h1 : strContains spdx "-only".data with
    | true =>
      right
      left
      rw [stripModifier_only spdx h1]
    | false =>
      cases h2 : strContains spdx "-or-later".data with
      | true =>
        right
        right
        rw [stripModifier_orlater spdx h1 h2]
      | false =>
        cases h3 : endsWithPlus spdx with
        | true =>
          right
          right
          rw [stripModifier_plus spdx h1 h2 h3]
        | false =>
          left
          rw [stripModifier_id spdx h1 h2 h3]
  · rw [bld_version_modifier_eq, avf_version_modifier_eq]

/-- C2 witness: the rules applied at `"GPL-2.0-only"` (first rule) and
at `"MIT"` (no rule matches). -/
theorem spec_C2_witness :
    (BLD.parse_license_version "GPL-2.0-only".data []).version_modifier =
        some "only".data ∧
      (BLD.parse_license_version "MIT".data []).version_modifier = none :=
  ⟨((spec_C2 "GPL-2.0-only".data []).1 (by decide)).1,
   (spec_C2 "MIT".data []).2.2.2.1 (by decide) (by decide) (by decide)⟩

/-- C3: whenever the pre-normalization family (the family computed by
the normalization-free parser copy) starts with `"CC-"` and is not
`"CC0"`, the build-script parser returns the literal family
`"Creative Commons"`; in particular `"CC-BY-SA-4.0"` parses to family
`"Creative Commons"`, version `"4.0"`, no modifier. -/
theorem spec_C3 :
    (∀ (spdx name fam : List Char),
      (AVF.parse_license_version spdx).license_family = some fam →
      strStartsWith fam "CC-".data = true →
      fam ≠ "CC0".data →
      (BLD.parse_license_version spdx name).license_family =
        some "Creative Commons".data) ∧
    BLD.parse_license_version "CC-BY-SA-4.0".data [] =
      ⟨some "Creative Commons".data, some "4.0".data, none⟩ := by
  constructor
  · intro spdx name fam hf hcc _
    rw [bld_family_map, hf]
    simp [normalizeFamily_CC fam hcc]
  · decide

/-- C3 witness: at `"CC-BY-4.0"` the pre-normalization family is
`"CC-BY"`, and the build-script parser normalizes it to
`"Creative Commons"`. -/
theorem spec_C3_witness :
    (BLD.parse_license_version "CC-BY-4.0".data []).license_family =
      some "Creative Commons".data :=
  spec_C3.1 "CC-BY-4.0".data [] "CC-BY".data (by decide) (by decide) (by decide)

/-- C4: every key of the exact-match table `LICENSE_USAGE_MAP` is
classified by its table value, taking precedence over the substring
fallback rules; in particular `"AGPL-3.0"` (which contains `"GPL"`)
returns the table's `"code"`, and `"Unlicense"` returns the table's
`"both"`. -/
theorem spec_C4 :
    (∀ (id v : List Char), List.lookup id BLD.LICENSE_USAGE_MAP = some v →
      BLD.get_license_usage_category id = v) ∧
    BLD.get_license_usage_category "AGPL-3.0".data = "code".data ∧
    strContains "AGPL-3.0".data "GPL".data = true ∧
    BLD.get_license_usage_category "Unlicense".data = "both".data := by
  refine ⟨?_, by decide, by decide, by decide⟩
  intro id v h
  unfold BLD.get_license_usage_category
  rw [h]

/-- C4 witness: `"MIT"` is a table key with value `"both"`, and the
classifier returns it. -/
theorem spec_C4_witness :
    BLD.get_license_usage_category "MIT".data = "both".data :=
  spec_C4.1 "MIT".data "both".data (by decide)

/-- C5: the version search honors regex first-match semantics: when it
succeeds, the returned family is exactly the text before the matched
hyphen, the match attempt at that position succeeds with the returned
version, and every earlier start position fails — so on
`"Foo-1.0-Bar-2.0"` the parser picks the leftmost run `"1.0"` with
family `"Foo"`. -/
theorem spec_C5 :
    (∀ (s fam ver : List Char), searchVersion [] s = some (fam, ver) →
      ∃ i, fam = s.take i ∧ matchAt s i = some ver ∧
        ∀ j < i, matchAt s j = none) ∧
    BLD.parse_license_version "Foo-1.0-Bar-2.0".data [] =
      ⟨some "Foo".data, some "1.0".data, none⟩ := by
  constructor
  · intro s fam ver h
    have := searchVersion_leftmost s [] fam ver h
    simpa using this
  · decide

/-- C5 witness: on `"Foo-1.0-Bar-2.0"` the search returns family
`"Foo"` and version `"1.0"`, certified leftmost. -/
theorem spec_C5_witness :
    ∃ i, "Foo".data = List.take i "Foo-1.0-Bar-2.0".data ∧
      matchAt "Foo-1.0-Bar-2.0".data i = some "1.0".data ∧
      ∀ j < i, matchAt "Foo-1.0-Bar-2.0".data j = none :=
  spec_C5.1 "Foo-1.0-Bar-2.0".data "Foo".data "1.0".data (by decide)

/-- C6: the classifier is total with its value always in the closed set
of the five labels, returns `"other"` when neither the table nor any
substring fallback matches, and in particular classifies
`"SomeUnknownLicense-9.9"` as `"other"`. -/
theorem spec_C6 :
    (∀ id : List Char,
      BLD.get_license_usage_category id ∈
        ["dataset".data, "model".data, "both".data, "code".data, "other".data]) ∧
    (∀ id : List Char, List.lookup id BLD.LICENSE_USAGE_MAP = none →
      strContains id "CC-BY".data = false → strContains id "CC-".data = false →
      strContains id "GPL".data = false → strContains id "LGPL".data = false →
      strContains id "BSD".data = false → strContains id "Apache".data = false →
      strContains id "RAIL".data = false → strContains id "OpenRAIL".data = false →
      strContains id "CDLA".data = false → strContains id "ODbL".data = false →
      BLD.get_license_usage_category id = "other".data) ∧
    BLD.get_license_usage_category "SomeUnknownLicense-9.9".data = "other".data := by
  refine ⟨?_, ?_, by decide⟩
  · intro id
    unfold BLD.get_license_usage_category
    split
    · next v hv => exact map_values_closed v (lookup_mem_values _ id v hv)
    · split
      · decide
      split
      · decide
      split
      · decide
      split
      · decide
      split
      · decide
      split
      · decide
      decide
  · intro id h0 h1 h2 h3 h4 h5 h6 h7 h8 h9 h10
    unfold BLD.get_license_usage_category
    rw [h0]
    simp [h1, h2, h3, h4, h5, h6, h7, h8, h9, h10]

/-- C6 witness: `"SomeUnknownLicense-9.9"` misses the table and every
fallback rule, so the default `"other"` applies. -/
theorem spec_C6_witness :
    BLD.get_license_usage_category "SomeUnknownLicense-9.9".data = "other".data :=
  spec_C6.2.1 "SomeUnknownLicense-9.9".data (by decide) (by decide) (by decide)
    (by decide) (by decide) (by decide) (by decide) (by decide) (by decide)
    (by decide) (by decide)

/-- C8: the two `parse_license_version` copies return identical
`version` and `version_modifier` fields on every input, and identical
`license_family` whenever the pre-normalization family does not start
with `"CC-"` (the build-script copy differs only in the
family-normalization step). -/
theorem spec_C8 (spdx name : List Char) :
    (BLD.parse_license_version spdx name).version =
        (AVF.parse_license_version spdx).version ∧
      (BLD.parse_license_version spdx name).version_modifier =
        (AVF.parse_license_version spdx).version_modifier ∧
      ∀ fam, (AVF.parse_license_version spdx).license_family = some fam →
        strStartsWith fam "CC-".data = false →
        (BLD.parse_license_version spdx name).license_family = some fam := by
  refine ⟨?_, ?_, ?_⟩
  · rw [bld_parse_eq_avf]
  · rw [bld_parse_eq_avf]
  · intro fam hf hcc
    rw [bld_family_map, hf]
    simp [normalizeFamily_eq_self fam hcc]

/-- C8 witness: at `"GPL-2.0"` the pre-normalization family `"GPL"` does
not start with `"CC-"`, so the two copies agree on all three fields. -/
theorem spec_C8_witness :
    (BLD.parse_license_version "GPL-2.0".data []).license_family =
      some "GPL".data :=
  (spec_C8 "GPL-2.0".data []).2.2 "GPL".data (by decide) (by decide)
